import Mathlib

/-!
Verification of the schedule-monitoring core against its specification.

The definitions below are a shallow embedding of the Python source:
`scheduler.py` (the `SchedulerManager` facade, `execute_task` dispatcher),
`api/schedule.py` (the HTTP handlers for create / toggle / delete / run-now),
`models.py` (the `Schedule` and `JobLog` records) and
`dtos/schedule.py` (the pydantic validators).

Conventions of the embedding:
  * Python `datetime` values in the fixed `Asia/Jakarta` timezone are modelled
    by `LocalDT` (year / month / day / hour / minute).
  * APScheduler's `CronTrigger` is modelled by `CronTrigger`; constructing it
    validates field ranges exactly as the library does (`mkCronTrigger`).
  * The scheduler's job table is a list of `Job`s keyed by schedule id; the
    database tables are lists of records inside `AppState`.
  * A raised Python exception inside a `try` block is modelled by an explicit
    `Option String` oracle carrying the error message, threaded to the point
    in the body where the exception would surface.
-/

/-- Leap-year rule of the Gregorian calendar, as used by Python's calendar. -/
def isLeap (y : Nat) : Bool :=
  (y % 4 == 0 && y % 100 != 0) || y % 400 == 0

/-- Number of days of month `m` (1-12) in year `y`; 0 for an invalid month. -/
def daysInMonth (y m : Nat) : Nat :=
  if m = 1 then 31
  else if m = 2 then (if isLeap y then 29 else 28)
  else if m = 3 then 31
  else if m = 4 then 30
  else if m = 5 then 31
  else if m = 6 then 30
  else if m = 7 then 31
  else if m = 8 then 31
  else if m = 9 then 30
  else if m = 10 then 31
  else if m = 11 then 30
  else if m = 12 then 31
  else 0

/-- Successor date in the proleptic Gregorian calendar. -/
def nextDay (y m d : Nat) : Nat × Nat × Nat :=
  if d < daysInMonth y m then (y, m, d + 1)
  else if m < 12 then (y, m + 1, 1)
  else (y + 1, 1, 1)

/-- Days in all years before year `y` (proleptic Gregorian). -/
def daysBeforeYear (y : Nat) : Nat :=
  365 * (y - 1) + ((y - 1) / 4 - (y - 1) / 100 + (y - 1) / 400)

/-- Days in the months of year `y` strictly before month `m`. -/
def daysBeforeMonth (y m : Nat) : Nat :=
  (List.range (m - 1)).foldl (fun acc i => acc + daysInMonth y (i + 1)) 0

/-- Ordinal day number of a date; day 1 is January 1 of year 1, a Monday. -/
def ordinalDay (y m d : Nat) : Nat :=
  daysBeforeYear y + daysBeforeMonth y m + d

/-- Weekday tag of a date, in APScheduler's lowercase three-letter form. -/
def weekdayName (y m d : Nat) : String :=
  match ordinalDay y m d % 7 with
  | 0 => "sun"
  | 1 => "mon"
  | 2 => "tue"
  | 3 => "wed"
  | 4 => "thu"
  | 5 => "fri"
  | _ => "sat"

/-- A wall-clock instant in the configured `Asia/Jakarta` timezone. -/
structure LocalDT where
  year : Nat
  month : Nat
  day : Nat
  hour : Nat
  minute : Nat
deriving DecidableEq, Repr

/-- Strictly monotone encoding of a `LocalDT` for chronological comparison
(valid fields are below each radix: month < 13, day < 32, hour < 24, minute < 60). -/
def LocalDT.key (t : LocalDT) : Nat :=
  (((t.year * 13 + t.month) * 32 + t.day) * 24 + t.hour) * 60 + t.minute

/-- Field validity of a `LocalDT` (a date that exists on the calendar). -/
def validDT (dt : LocalDT) : Bool :=
  decide (1 ≤ dt.month ∧ dt.month ≤ 12 ∧ 1 ≤ dt.day ∧
    dt.day ≤ daysInMonth dt.year dt.month ∧ dt.hour ≤ 23 ∧ dt.minute ≤ 59)

/-- Day-selection part of a cron trigger, as built by `SchedulerManager.add_schedule`:
fire every day, on a set of weekday tags, or on one day of the month. -/
inductive DaySel where
  | everyday : DaySel
  | dow (days : List String) : DaySel
  | dom (day : Int) : DaySel
deriving DecidableEq, Repr

/-- The weekday tags accepted by APScheduler's `day_of_week` cron field,
also the key set of `day_map` in `SchedulerManager.add_schedule`. -/
def validDaysList : List String :=
  ["mon", "tue", "wed", "thu", "fri", "sat", "sun"]

/-- Embedding of an APScheduler `CronTrigger` with a single minute and hour
value, as `add_schedule` always constructs. -/
structure CronTrigger where
  minute : Nat
  hour : Nat
  sel : DaySel
  timezone : String
deriving DecidableEq, Repr

/-- Constructing a `CronTrigger` validates every field range, as the
APScheduler library does (a bad field raises `ValueError`). -/
def mkCronTrigger (minute hour : Nat) (sel : DaySel) : Except String CronTrigger :=
  if 60 ≤ minute then .error "minute out of range"
  else if 24 ≤ hour then .error "hour out of range"
  else
    match sel with
    | .everyday => .ok ⟨minute, hour, sel, "Asia/Jakarta"⟩
    | .dow days =>
        if days.all (fun d => validDaysList.contains d) then
          .ok ⟨minute, hour, sel, "Asia/Jakarta"⟩
        else .error "invalid day of week"
    | .dom d =>
        if 1 ≤ d ∧ d ≤ 31 then .ok ⟨minute, hour, sel, "Asia/Jakarta"⟩
        else .error "day out of range"

/-- A row of the `schedules` table (`models.Schedule`). `run_time` is a Python
`time` object, embedded as its hour and minute fields. -/
structure ScheduleRec where
  id : Nat
  name : String
  scheduleType : String
  runTimeHour : Nat
  runTimeMinute : Nat
  dayOfWeek : Option String
  dayOfMonth : Option Int
  isActive : Bool
  mediaChannelId : Option Int
deriving DecidableEq, Repr

/-- Python truthiness of an optional string (`None` and `""` are falsy). -/
def strTruthy : Option String → Bool
  | none => false
  | some s => s != ""

/-- Python truthiness of an optional integer (`None` and `0` are falsy). -/
def intTruthy : Option Int → Bool
  | none => false
  | some n => n != 0

/-- Python membership test `c in s` for a single character. -/
def containsChar (s : String) (c : Char) : Bool := s.data.contains c

/-- Python `str.lower()` on the ASCII day tags this program handles. -/
def lowerStr (s : String) : String := String.mk (s.data.map Char.toLower)

/-- Whitespace characters recognized by Python `str.strip()`. -/
def isSpaceChar (c : Char) : Bool :=
  c == ' ' || c == '\t' || c == '\n' || c == '\r'

/-- Python `str.strip()`. -/
def trimStr (s : String) : String :=
  String.mk (((s.data.dropWhile isSpaceChar).reverse.dropWhile
    isSpaceChar).reverse)

/-- Splitting a character list at each separator, keeping empty pieces, as
Python `str.split(sep)` does. -/
def splitOnCharAux (sep : Char) : List Char → List Char → List (List Char)
  | [], acc => [acc.reverse]
  | c :: rest, acc =>
      if c = sep then acc.reverse :: splitOnCharAux sep rest []
      else splitOnCharAux sep rest (c :: acc)

/-- Python `str.split(sep)` for a one-character separator. -/
def splitOnChar (s : String) (sep : Char) : List String :=
  (splitOnCharAux sep s.data []).map String.mk

/-- Decimal digit accumulation for `int(s)`. -/
def parseNatAux : List Char → Nat → Option Nat
  | [], acc => some acc
  | c :: rest, acc =>
      if c.isDigit then parseNatAux rest (acc * 10 + (c.toNat - 48)) else none

/-- A non-empty all-digit character list parsed as a natural number. -/
def parseNatChars : List Char → Option Nat
  | [] => none
  | cs => parseNatAux cs 0

/-- Python `int(s)`: strip whitespace, optional sign, decimal digits. -/
def parseIntStr (s : String) : Option Int :=
  match (trimStr s).data with
  | '-' :: rest => (parseNatChars rest).map (fun n => -(n : Int))
  | '+' :: rest => (parseNatChars rest).map (fun n => (n : Int))
  | cs => (parseNatChars cs).map (fun n => (n : Int))

/-- The per-tag lookup `day_map.get(d.strip().lower(), 'mon')` of
`SchedulerManager.add_schedule`: a recognized tag maps to itself, anything
else silently maps to the default `"mon"`. -/
def mapDay (d : String) : String :=
  if validDaysList.contains (lowerStr (trimStr d)) then lowerStr (trimStr d)
  else "mon"

/-- Trigger construction of `SchedulerManager.add_schedule` (the recurrence
translator): the `if / elif / else` chain over `schedule_type`, including the
fall-through default to a daily trigger. -/
def buildTrigger (s : ScheduleRec) : Except String CronTrigger :=
  if s.scheduleType = "daily" then
    mkCronTrigger s.runTimeMinute s.runTimeHour DaySel.everyday
  else if s.scheduleType = "weekly" ∧ strTruthy s.dayOfWeek then
    let days := splitOnChar (s.dayOfWeek.getD "") ','
    mkCronTrigger s.runTimeMinute s.runTimeHour (DaySel.dow (days.map mapDay))
  else if s.scheduleType = "monthly" ∧ intTruthy s.dayOfMonth then
    mkCronTrigger s.runTimeMinute s.runTimeHour (DaySel.dom (s.dayOfMonth.getD 0))
  else
    mkCronTrigger s.runTimeMinute s.runTimeHour DaySel.everyday

/-- Does the day-selection of a trigger match a given date? -/
def selMatches (sel : DaySel) (y m d : Nat) : Bool :=
  match sel with
  | .everyday => true
  | .dow days => days.contains (weekdayName y m d)
  | .dom dd => dd == (d : Int)

/-- Does a trigger fire at the given instant (ignoring calendar validity)? -/
def cronMatches (t : CronTrigger) (dt : LocalDT) : Bool :=
  (dt.minute == t.minute) && (dt.hour == t.hour) &&
    selMatches t.sel dt.year dt.month dt.day

/-- An instant is a fire instant of a trigger when it exists on the calendar
and the trigger matches it. -/
def isFire (t : CronTrigger) (dt : LocalDT) : Bool :=
  validDT dt && cronMatches t dt

/-- Day-by-day search for the next fire instant: the trigger fixes the hour
and minute, so each date carries at most one candidate. -/
def nextFireAux (t : CronTrigger) (now : LocalDT) :
    Nat → Nat × Nat × Nat → Option LocalDT
  | 0, _ => none
  | fuel + 1, (y, m, d) =>
    let cand : LocalDT := ⟨y, m, d, t.hour, t.minute⟩
    if selMatches t.sel y m d && decide (now.key < cand.key) then some cand
    else nextFireAux t now fuel (nextDay y m d)

/-- The first fire instant of `t` strictly after `now`, searched within a
ten-year defensive horizon (APScheduler's next-fire computation). -/
def nextFire (t : CronTrigger) (now : LocalDT) : Option LocalDT :=
  nextFireAux t now 3660 (now.year, now.month, now.day)

/-- An armed APScheduler job (`scheduler.add_job` result): its id encodes the
schedule (`schedule_{id}`), its trigger, and its computed next run time. -/
structure Job where
  id : Nat
  trigger : CronTrigger
  nextRun : Option LocalDT
deriving DecidableEq, Repr

/-- Removing the job of a schedule id (`scheduler.remove_job`); a no-op when
no such job is armed. -/
def removeJob (jobs : List Job) (i : Nat) : List Job :=
  jobs.filter (fun j => j.id ≠ i)

/-- Is a job armed for this schedule id (`scheduler.get_job`)? -/
def hasJob (jobs : List Job) (i : Nat) : Bool :=
  jobs.any (fun j => j.id = i)

/-- Adding a job with `replace_existing=True` (`scheduler.add_job`). -/
def addJob (jobs : List Job) (i : Nat) (t : CronTrigger) (nr : Option LocalDT) : List Job :=
  removeJob jobs i ++ [⟨i, t, nr⟩]

/-- Embedding of `SchedulerManager.add_schedule`, the reconcile path: the
existing job for the id is removed first, then the trigger is built; an
exception while building the trigger (invalid cron field) is caught by the
surrounding `except`, leaving the removal already performed. On success the
job is (re-)armed with its next fire instant computed from `now`. -/
def add_schedule (jobs : List Job) (s : ScheduleRec) (now : LocalDT) : List Job :=
  let jobs1 := removeJob jobs s.id
  match buildTrigger s with
  | .error _ => jobs1
  | .ok t => addJob jobs1 s.id t (nextFire t now)

/-- A row of the `media_channels` table referenced by `execute_task`. -/
structure MediaChannel where
  id : Int
  platform : String
  link : String
deriving DecidableEq, Repr

/-- A row of the `job_logs` table (`models.JobLog`). -/
structure JobLogE where
  scheduleId : Option Nat
  status : String
  message : String
deriving DecidableEq, Repr

/-- Embedding of `execute_task` in `scheduler.py`, the execution dispatcher.
`channels` is the `media_channels` table; `raised` is the exception oracle: an
error raised inside the task body (before the success log is committed)
surfaces as `some message` and is caught by the outer `except`, which writes
the error log entry. The function returns the list of log entries written by
this dispatch; it is total, so no error ever propagates to the caller. -/
def execute_task (scheduleId : Nat) (scheduleName : String)
    (mediaChannelId : Option Int) (channels : List MediaChannel)
    (raised : Option String) : List JobLogE :=
  match raised with
  | some e => [⟨some scheduleId, "error", "Error: " ++ e⟩]
  | none =>
    let message :=
      if intTruthy mediaChannelId then
        match channels.find? (fun mc => mc.id == mediaChannelId.getD 0) with
        | some mc =>
            "✅ Scraping \x27" ++ scheduleName ++ "\x27 completed\nPlatform: " ++
              mc.platform ++ "\nURL: " ++ mc.link
        | none =>
            "⚠️ Media channel " ++ toString (mediaChannelId.getD 0) ++ " not found"
      else
        "✅ Print task \x27" ++ scheduleName ++ "\x27 completed"
    [⟨some scheduleId, "success", message⟩]

/-- Embedding of the `run_schedule_now` handler (`POST /run-now/<id>`): the
schedule is looked up by id only — `is_active` is not consulted — and, when
found, `execute_task` is called directly. Returns the HTTP status and the log
entries written by the call. -/
def run_schedule_now (schedules : List ScheduleRec) (channels : List MediaChannel)
    (sid : Nat) (raised : Option String) : Nat × List JobLogE :=
  match schedules.find? (fun s => s.id == sid) with
  | none => (404, [])
  | some s => (200, execute_task s.id s.name s.mediaChannelId channels raised)

/-- Parsing of `data["run_time"]` in the `create_schedule` handler: a string
without a colon silently becomes `00:00`; a string with a colon must split
into two integer parts forming a valid `time(hour, minute)`, otherwise the
handler answers 400. -/
def parse_run_time (t : String) : Option (Nat × Nat) :=
  if containsChar t ':' then
    match splitOnChar t ':' with
    | [hs, ms] =>
      match parseIntStr hs, parseIntStr ms with
      | some h, some m =>
          if 0 ≤ h ∧ h ≤ 23 ∧ 0 ≤ m ∧ m ≤ 59 then some (h.toNat, m.toNat)
          else none
      | _, _ => none
    | _ => none
  else some (0, 0)

/-- A create request body with the three required fields present (`name`,
`schedule_type`, `run_time`) plus the optional ones the handler reads. -/
structure CreateReq where
  name : String
  scheduleType : String
  runTime : String
  dayOfWeek : Option String
  dayOfMonth : Option Int
  isActive : Option Bool
  mediaChannelId : Option Int
deriving DecidableEq, Repr

/-- The state acted on by the HTTP handlers: the `schedules` table, the armed
job set of the scheduler, and the `job_logs` table. -/
structure AppState where
  schedules : List ScheduleRec
  jobs : List Job
  logs : List JobLogE
deriving DecidableEq, Repr

/-- Auto-increment primary key for a new `schedules` row. -/
def nextId (schedules : List ScheduleRec) : Nat :=
  (schedules.map (fun s => s.id)).foldl max 0 + 1

/-- The `Schedule` row built by the `create_schedule` handler from a request,
with `is_active` defaulting to `True`. -/
def newSchedOfReq (st : AppState) (d : CreateReq) (h m : Nat) : ScheduleRec :=
  ⟨nextId st.schedules, trimStr d.name, d.scheduleType, h, m,
    d.dayOfWeek, d.dayOfMonth, d.isActive.getD true, d.mediaChannelId⟩

/-- Embedding of the `create_schedule` handler (`POST /api/schedules`): parse
the time (400 on failure), insert the row, then call
`scheduler.add_schedule` unconditionally — the `is_active` flag is not
consulted before arming — and append the creation log entry. -/
def create_schedule (st : AppState) (d : CreateReq) (now : LocalDT)
    (nowStr : String) : Nat × AppState :=
  match parse_run_time d.runTime with
  | none => (400, st)
  | some (h, m) =>
    let s := newSchedOfReq st d h m
    let schedules := st.schedules ++ [s]
    let jobs := add_schedule st.jobs s now
    let logs := st.logs ++
      [⟨some s.id, "success",
        "Schedule \x27" ++ s.name ++ "\x27 created at " ++ nowStr⟩]
    (201, ⟨schedules, jobs, logs⟩)

/-- Embedding of the `toggle_schedule` handler (`PATCH /<id>/toggle`): flip
`is_active`; re-arm through `add_schedule` when it becomes true, disarm
through `remove_schedule` when it becomes false; log the change. -/
def toggle_schedule (st : AppState) (sid : Nat) (now : LocalDT) : Nat × AppState :=
  match st.schedules.find? (fun s => s.id == sid) with
  | none => (404, st)
  | some s =>
    let newStatus := ! s.isActive
    let schedules := st.schedules.map
      (fun x => if x.id = sid then { x with isActive := newStatus } else x)
    let jobs :=
      if newStatus then add_schedule st.jobs { s with isActive := newStatus } now
      else removeJob st.jobs sid
    let logs := st.logs ++
      [⟨some sid, "success",
        if newStatus then "Schedule activated" else "Schedule deactivated"⟩]
    (200, ⟨schedules, jobs, logs⟩)

/-- Embedding of the `delete_schedule` handler (`DELETE /<id>`): disarm the
job, delete the row; the `cascade` on the relationship deletes its logs. -/
def delete_schedule (st : AppState) (sid : Nat) : Nat × AppState :=
  match st.schedules.find? (fun s => s.id == sid) with
  | none => (404, st)
  | some _ =>
    let jobs := removeJob st.jobs sid
    let schedules := st.schedules.filter (fun s => s.id ≠ sid)
    let logs := st.logs.filter (fun l => l.scheduleId ≠ some sid)
    (200, ⟨schedules, jobs, logs⟩)

/-- Embedding of `SchedulerManager.load_schedules` (start-up load): query the
rows with `is_active = True` and call `add_schedule` for each. -/
def load_schedules (st : AppState) (now : LocalDT) : AppState :=
  { st with
    jobs := (st.schedules.filter (fun s => s.isActive)).foldl
      (fun js s => add_schedule js s now) st.jobs }

/-- Embedding of the pydantic validator `ScheduleCreate.validate_day_of_week`
in `dtos/schedule.py`: requires the field for weekly schedules and rejects
any tag outside the seven valid weekday names. -/
def validate_day_of_week (scheduleType : String) (v : Option String) :
    Except String (Option String) :=
  if scheduleType = "weekly" ∧ ¬ strTruthy v then
    .error "day_of_week diperlukan untuk schedule_type weekly"
  else if strTruthy v then
    let days := (splitOnChar (v.getD "") ',').map
      (fun d => lowerStr (trimStr d))
    if days.all (fun d => validDaysList.contains d) then .ok v
    else .error "Hari tidak valid"
  else .ok v

/-- A dispatch through `execute_task` writes exactly one log entry, whatever
the inputs and whether or not the task body raised. -/
theorem execute_task_length (sid : Nat) (name : String) (mcid : Option Int)
    (channels : List MediaChannel) (raised : Option String) :
    (execute_task sid name mcid channels raised).length = 1 := by
  cases raised <;> simp [execute_task]

/-- No job for id `i` remains after `removeJob js i`. -/
theorem hasJob_removeJob_self (js : List Job) (i : Nat) :
    hasJob (removeJob js i) i = false := by
  simp only [hasJob, removeJob, List.any_eq_false, List.mem_filter,
    decide_eq_true_eq, and_imp]
  intro j _ h
  simpa using h

/-- Removing a job id is idempotent. -/
theorem removeJob_removeJob (js : List Job) (i : Nat) :
    removeJob (removeJob js i) i = removeJob js i := by
  simp [removeJob, List.filter_filter]

/-- Removing one job id does not affect the presence of another. -/
theorem hasJob_removeJob_ne (js : List Job) (j i : Nat) (h : j ≠ i) :
    hasJob (removeJob js j) i = hasJob js i := by
  rw [Bool.eq_iff_iff]
  simp only [hasJob, removeJob, List.any_eq_true, List.mem_filter,
    decide_eq_true_eq]
  constructor
  · rintro ⟨x, ⟨hx, _⟩, hi⟩
    exact ⟨x, hx, hi⟩
  · rintro ⟨x, hx, hi⟩
    exact ⟨x, ⟨hx, fun hc => h (hc ▸ hi ▸ rfl)⟩, hi⟩

/-- Reconciling one schedule does not affect the armed job of another id. -/
theorem hasJob_add_schedule_ne (js : List Job) (s : ScheduleRec) (now : LocalDT)
    (i : Nat) (h : s.id ≠ i) :
    hasJob (add_schedule js s now) i = hasJob js i := by
  cases hb : buildTrigger s with
  | error e =>
    simp only [add_schedule, hb]
    exact hasJob_removeJob_ne js s.id i h
  | ok t =>
    simp only [add_schedule, hb, addJob, hasJob, List.any_append]
    rw [removeJob_removeJob]
    rw [show ([⟨s.id, t, nextFire t now⟩] : List Job).any (fun j => j.id = i) = false by
      simp [h]]
    rw [show (removeJob js s.id).any (fun j => j.id = i) = hasJob js i from
      hasJob_removeJob_ne js s.id i h]
    simp [hasJob]

/-- Folding `add_schedule` over schedules whose ids all differ from `i`
arms no job for `i`. -/
theorem hasJob_foldl_add (now : LocalDT) (i : Nat) :
    ∀ (l : List ScheduleRec) (js : List Job), (∀ s ∈ l, s.id ≠ i) →
      hasJob js i = false →
      hasJob (l.foldl (fun js s => add_schedule js s now) js) i = false := by
  intro l
  induction l with
  | nil => intro js _ h; exact h
  | cons a tl ih =>
    intro js hall h
    simp only [List.foldl_cons]
    refine ih _ (fun s hs => hall s (List.mem_cons_of_mem _ hs)) ?_
    rw [hasJob_add_schedule_ne _ _ _ _ (hall a (List.mem_cons_self _ _))]
    exact h

/-- Any instant returned by the next-fire search carries the trigger's hour
and minute, matches its day selection, and lies strictly after `now`. -/
theorem nextFireAux_spec (t : CronTrigger) (now : LocalDT) :
    ∀ (fuel : Nat) (ymd : Nat × Nat × Nat) (f : LocalDT),
      nextFireAux t now fuel ymd = some f →
      f.hour = t.hour ∧ f.minute = t.minute ∧
        selMatches t.sel f.year f.month f.day = true ∧ now.key < f.key := by
  intro fuel
  induction fuel with
  | zero => intro ymd f h; simp [nextFireAux] at h
  | succ n ih =>
    rintro ⟨y, m, d⟩ f h
    simp only [nextFireAux] at h
    split at h
    · rename_i hcond
      rw [Bool.and_eq_true] at hcond
      obtain ⟨hsel, hkey⟩ := hcond
      cases h
      exact ⟨rfl, rfl, hsel, of_decide_eq_true hkey⟩
    · exact ih _ f h

/-- The next fire instant computed when arming lies strictly after `now`:
re-arming never schedules an immediate spurious fire. -/
theorem nextFire_gt (t : CronTrigger) (now f : LocalDT)
    (h : nextFire t now = some f) : now.key < f.key :=
  (nextFireAux_spec t now 3660 (now.year, now.month, now.day) f h).2.2.2

/-- Inversion of `mkCronTrigger`: a successfully built trigger has in-range
minute and hour and carries the requested selection and fixed timezone. -/
theorem mkCronTrigger_ok (minute hour : Nat) (sel : DaySel) (t : CronTrigger)
    (h : mkCronTrigger minute hour sel = .ok t) :
    t = ⟨minute, hour, sel, "Asia/Jakarta"⟩ ∧ minute ≤ 59 ∧ hour ≤ 23 := by
  unfold mkCronTrigger at h
  split at h
  · simp at h
  split at h
  · simp at h
  rename_i hmin hhour
  split at h
  · exact ⟨((Except.ok.injEq _ _).mp h).symm, by omega, by omega⟩
  · split at h
    · exact ⟨((Except.ok.injEq _ _).mp h).symm, by omega, by omega⟩
    · simp at h
  · split at h
    · exact ⟨((Except.ok.injEq _ _).mp h).symm, by omega, by omega⟩
    · simp at h

/-- Inversion of `mkCronTrigger` for the day-of-month selection: success also
bounds the day between 1 and 31. -/
theorem mkCronTrigger_dom_ok (minute hour : Nat) (d : Int) (t : CronTrigger)
    (h : mkCronTrigger minute hour (DaySel.dom d) = .ok t) :
    t = ⟨minute, hour, DaySel.dom d, "Asia/Jakarta"⟩ ∧
      minute ≤ 59 ∧ hour ≤ 23 ∧ 1 ≤ d ∧ d ≤ 31 := by
  have hbase := mkCronTrigger_ok minute hour (DaySel.dom d) t h
  unfold mkCronTrigger at h
  split at h
  · simp at h
  split at h
  · simp at h
  split at h
  · rename_i heq
    exact absurd heq (by simp)
  · rename_i heq
    exact absurd heq (by simp)
  · rename_i dd heq
    obtain rfl : dd = d := by
      injection heq with h2
      exact h2.symm
    split at h
    · rename_i hd
      exact ⟨hbase.1, hbase.2.1, hbase.2.2, hd.1, hd.2⟩
    · simp at h

/-- On a daily schedule, `add_schedule` builds an everyday trigger. -/
theorem buildTrigger_daily (s : ScheduleRec) (h : s.scheduleType = "daily") :
    buildTrigger s = mkCronTrigger s.runTimeMinute s.runTimeHour DaySel.everyday := by
  simp [buildTrigger, h]

/-- On a weekly schedule with a truthy `day_of_week`, `add_schedule` builds a
weekday trigger from the comma-split, `day_map`-defaulted tags. -/
theorem buildTrigger_weekly (s : ScheduleRec)
    (h1 : s.scheduleType = "weekly") (h2 : strTruthy s.dayOfWeek = true) :
    buildTrigger s = mkCronTrigger s.runTimeMinute s.runTimeHour
      (DaySel.dow ((splitOnChar (s.dayOfWeek.getD "") ',').map mapDay)) := by
  simp [buildTrigger, h1, h2]

/-- On a monthly schedule with a truthy `day_of_month`, `add_schedule` builds
a day-of-month trigger. -/
theorem buildTrigger_monthly (s : ScheduleRec) (dm : Int)
    (h1 : s.scheduleType = "monthly") (h2 : s.dayOfMonth = some dm)
    (h3 : dm ≠ 0) :
    buildTrigger s = mkCronTrigger s.runTimeMinute s.runTimeHour
      (DaySel.dom dm) := by
  simp [buildTrigger, h1, h2, intTruthy, h3]

/-- `day_map.get(..., 'mon')` always lands inside the valid weekday set. -/
theorem mapDay_contains (d : String) :
    validDaysList.contains (mapDay d) = true := by
  unfold mapDay
  split
  · assumption
  · rfl

/-- A list of `day_map`-defaulted tags passes the cron field validation. -/
theorem mapped_days_all_valid (days : List String) :
    (days.map mapDay).all (fun d => validDaysList.contains d) = true := by
  rw [List.all_eq_true]
  intro x hx
  rw [List.mem_map] at hx
  obtain ⟨d, _, rfl⟩ := hx
  exact mapDay_contains d

/-- C1: every dispatch through `execute_task` — whether clock-triggered or
manual run-now — writes exactly one `ExecutionLogEntry`: on task success one
entry with status `success`, and on any error raised during the task exactly
one entry with status `error` carrying the error's message; the dispatcher is
a total function, so the error is caught inside it and never propagated to
the caller. -/
theorem C1_dispatch_exactly_one_log (sid : Nat) (name : String)
    (mcid : Option Int) (channels : List MediaChannel) (raised : Option String) :
    (execute_task sid name mcid channels raised).length = 1 ∧
    (raised = none →
      ∃ msg, execute_task sid name mcid channels raised =
        [⟨some sid, "success", msg⟩]) ∧
    (∀ e, raised = some e →
      execute_task sid name mcid channels raised =
        [⟨some sid, "error", "Error: " ++ e⟩]) := by
  refine ⟨execute_task_length sid name mcid channels raised, ?_, ?_⟩
  · rintro rfl
    exact ⟨_, rfl⟩
  · rintro e rfl
    rfl

/-- A schedule row that exists but is inactive, used to probe run-now. -/
def inactiveSched : ScheduleRec := ⟨1, "s", "daily", 9, 0, none, none, false, none⟩

/-- C3 counterexample: `run_schedule_now` on an existing but inactive
schedule does not fail with `NotFound`; it answers 200 and dispatches the
task, writing a log entry — the handler never consults `is_active`. -/
theorem C3_cex :
    inactiveSched.isActive = false ∧
    run_schedule_now [inactiveSched] [] 1 none =
      (200, [⟨some 1, "success", "✅ Print task \x27s\x27 completed"⟩]) :=
  ⟨rfl, rfl⟩

/-- C3 amended: `runNow` fails with `NotFound` and writes no log entry only
when the scheduleId is absent from storage; for every existing definition —
active or not — it dispatches the task directly, writing exactly one log
entry. -/
theorem C3_amended (schedules : List ScheduleRec) (channels : List MediaChannel)
    (sid : Nat) (raised : Option String) :
    (schedules.find? (fun s => s.id == sid) = none →
      run_schedule_now schedules channels sid raised = (404, [])) ∧
    (∀ s, schedules.find? (fun s => s.id == sid) = some s →
      (run_schedule_now schedules channels sid raised).1 = 200 ∧
      (run_schedule_now schedules channels sid raised).2.length = 1) := by
  constructor
  · intro h
    simp [run_schedule_now, h]
  · intro s h
    simp [run_schedule_now, h, execute_task_length]

/-- C5 amended: a definition rejected as invalid at reconcile time does not
leave the previously armed trigger untouched — `add_schedule` removes the
existing job before attempting translation, so the id ends with no armed
trigger at all. -/
theorem C5_amended (jobs : List Job) (s : ScheduleRec) (now : LocalDT)
    (e : String) (h : buildTrigger s = .error e) :
    add_schedule jobs s now = removeJob jobs s.id ∧
    hasJob (add_schedule jobs s now) s.id = false := by
  have h1 : add_schedule jobs s now = removeJob jobs s.id := by
    simp [add_schedule, h]
  rw [h1]
  exact ⟨rfl, hasJob_removeJob_self jobs s.id⟩

/-- A monthly schedule whose `day_of_month` 32 fails cron validation. -/
def badMonthlySched : ScheduleRec :=
  ⟨5, "m", "monthly", 9, 0, none, some 32, true, none⟩

/-- A previously armed job for schedule id 5. -/
def armedJob5 : Job := ⟨5, ⟨0, 9, DaySel.everyday, "Asia/Jakarta"⟩, none⟩

/-- C5 counterexample: reconciling schedule id 5 with an invalid definition
(`day_of_month = 32`) removes the previously armed trigger instead of
leaving it unchanged: the job set ends empty. -/
theorem C5_cex :
    hasJob [armedJob5] 5 = true ∧
    add_schedule [armedJob5] badMonthlySched ⟨2024, 1, 1, 0, 0⟩ = [] :=
  ⟨rfl, rfl⟩

/-- C5 witness: the amended statement applied to the concrete invalid
monthly definition and the armed job for its id. -/
theorem C5_amended_witness :
    buildTrigger badMonthlySched = Except.error "day out of range" ∧
    (add_schedule [armedJob5] badMonthlySched ⟨2024, 1, 1, 0, 0⟩ =
        removeJob [armedJob5] badMonthlySched.id ∧
      hasJob (add_schedule [armedJob5] badMonthlySched ⟨2024, 1, 1, 0, 0⟩)
        badMonthlySched.id = false) :=
  ⟨rfl, C5_amended [armedJob5] badMonthlySched ⟨2024, 1, 1, 0, 0⟩
    "day out of range" rfl⟩

/-- C6: reconciling the same unchanged active definition twice in a row is
idempotent — the armed trigger (including its `nextFireAt`) after the second
`add_schedule` call is identical to the one after the first — and the armed
job's next fire instant lies strictly after `now`, so the re-arm causes no
immediate spurious fire. -/
theorem C6_reconcile_idempotent (jobs : List Job) (s : ScheduleRec)
    (now : LocalDT) :
    add_schedule (add_schedule jobs s now) s now = add_schedule jobs s now ∧
    (∀ j ∈ add_schedule jobs s now, j.id = s.id →
      ∀ f, j.nextRun = some f → now.key < f.key) := by
  constructor
  · cases hb : buildTrigger s with
    | error e =>
      simp only [add_schedule, hb]
      exact removeJob_removeJob jobs s.id
    | ok t =>
      simp [add_schedule, hb, addJob, removeJob, List.filter_append,
        List.filter_filter]
  · intro j hj hid f hf
    cases hb : buildTrigger s with
    | error e =>
      simp only [add_schedule, hb] at hj
      rw [removeJob, List.mem_filter] at hj
      exact absurd hid (by simpa using hj.2)
    | ok t =>
      simp only [add_schedule, hb, addJob] at hj
      rw [List.mem_append] at hj
      cases hj with
      | inl hmem =>
        rw [removeJob, List.mem_filter] at hmem
        exact absurd hid (by simpa using hmem.2)
      | inr hsing =>
        have hjeq : j = ⟨s.id, t, nextFire t now⟩ := by simpa using hsing
        subst hjeq
        simp only at hf
        exact nextFire_gt t now f hf

/-- Success of cron construction for an in-range weekday trigger. -/
theorem mkCronTrigger_dow_ok (minute hour : Nat) (days : List String)
    (hm : minute ≤ 59) (hh : hour ≤ 23)
    (hdays : days.all (fun d => validDaysList.contains d) = true) :
    mkCronTrigger minute hour (DaySel.dow days) =
      .ok ⟨minute, hour, DaySel.dow days, "Asia/Jakarta"⟩ := by
  have h60 : ¬ 60 ≤ minute := by omega
  have h24 : ¬ 24 ≤ hour := by omega
  unfold mkCronTrigger
  rw [if_neg h60, if_neg h24]
  exact if_pos hdays

/-- A weekly schedule row whose `day_of_week` holds an unrecognized tag. -/
def badWeeklySched : ScheduleRec :=
  ⟨1, "w", "weekly", 9, 0, some "funday", none, true, none⟩

/-- C2 counterexample: arming a weekly schedule with the unrecognized weekday
tag "funday" does not fail with an `InvalidRecurrence` error — trigger
construction succeeds and the tag is silently replaced by the default
weekday `"mon"`. -/
theorem C2_cex :
    buildTrigger badWeeklySched =
      Except.ok ⟨0, 9, DaySel.dow ["mon"], "Asia/Jakarta"⟩ := by
  rfl

/-- C2 amended: for a weekly schedule with a truthy `day_of_week` (and the
in-range hour/minute a Python `time` object guarantees), arming never fails:
the trigger is built from the comma-split tags with every unrecognized tag
silently mapped to the default `"mon"`. Only the pydantic validator
`ScheduleCreate.validate_day_of_week` — which the create endpoint never
invokes — rejects a list containing an unrecognized tag. -/
theorem C2_amended (s : ScheduleRec)
    (h1 : s.scheduleType = "weekly") (h2 : strTruthy s.dayOfWeek = true)
    (h3 : s.runTimeHour ≤ 23) (h4 : s.runTimeMinute ≤ 59) :
    buildTrigger s = Except.ok ⟨s.runTimeMinute, s.runTimeHour,
      DaySel.dow ((splitOnChar (s.dayOfWeek.getD "") ',').map mapDay),
      "Asia/Jakarta"⟩ ∧
    (∀ d : String, validDaysList.contains (lowerStr (trimStr d)) = false →
      mapDay d = "mon") ∧
    (((splitOnChar (s.dayOfWeek.getD "") ',').any
        (fun d => ! validDaysList.contains (lowerStr (trimStr d)))) = true →
      validate_day_of_week s.scheduleType s.dayOfWeek =
        .error "Hari tidak valid") := by
  refine ⟨?_, ?_, ?_⟩
  · rw [buildTrigger_weekly s h1 h2]
    exact mkCronTrigger_dow_ok _ _ _ h4 h3 (mapped_days_all_valid _)
  · intro d hd
    unfold mapDay
    rw [hd]
    simp
  · intro hany
    rw [List.any_eq_true] at hany
    obtain ⟨d, hd, hinv⟩ := hany
    simp [validate_day_of_week, h1, h2]
    exact ⟨d, hd, by simpa using hinv⟩

/-- C2 witness: the amended statement applied to the concrete weekly
schedule whose `day_of_week` is "funday". -/
theorem C2_amended_witness :
    badWeeklySched.scheduleType = "weekly" ∧
    strTruthy badWeeklySched.dayOfWeek = true ∧
    badWeeklySched.runTimeHour ≤ 23 ∧ badWeeklySched.runTimeMinute ≤ 59 ∧
    (buildTrigger badWeeklySched = Except.ok ⟨badWeeklySched.runTimeMinute,
        badWeeklySched.runTimeHour,
        DaySel.dow ((splitOnChar (badWeeklySched.dayOfWeek.getD "") ',').map
          mapDay),
        "Asia/Jakarta"⟩ ∧
      (∀ d : String, validDaysList.contains (lowerStr (trimStr d)) = false →
        mapDay d = "mon") ∧
      (((splitOnChar (badWeeklySched.dayOfWeek.getD "") ',').any
          (fun d => ! validDaysList.contains (lowerStr (trimStr d)))) = true →
        validate_day_of_week badWeeklySched.scheduleType
          badWeeklySched.dayOfWeek = .error "Hari tidak valid")) :=
  ⟨rfl, rfl, by decide, by decide,
    C2_amended badWeeklySched rfl rfl (by decide) (by decide)⟩

/-- An empty application state (no schedules, no jobs, no logs). -/
def emptyState : AppState := ⟨[], [], []⟩

/-- A create request for a daily schedule explicitly marked inactive. -/
def inactiveReq : CreateReq := ⟨"n", "daily", "09:30", none, none, some false, none⟩

/-- A fixed clock instant used by the concrete scenarios. -/
def clock0 : LocalDT := ⟨2024, 1, 1, 12, 0⟩

/-- C4 counterexample: creating a definition with `is_active = false` still
arms a trigger for it — `create_schedule` calls `scheduler.add_schedule`
unconditionally, so the new inactive schedule (id 1) ends with an armed job. -/
theorem C4_cex :
    (create_schedule emptyState inactiveReq clock0 "t").1 = 201 ∧
    ((create_schedule emptyState inactiveReq clock0 "t").2.schedules.map
      (fun s => s.isActive)) = [false] ∧
    hasJob (create_schedule emptyState inactiveReq clock0 "t").2.jobs 1 = true :=
  ⟨rfl, rfl, rfl⟩

/-- C4 amended: deactivating through toggle disarms the trigger, start-up
load arms no trigger for an id all of whose active rows differ from it,
delete disarms, but creating a definition arms a trigger for it regardless
of `is_active` whenever translation succeeds — in particular a definition
created with `active = false` gets an armed trigger. -/
theorem C4_amended (st : AppState) (sid : Nat) (now : LocalDT)
    (d : CreateReq) (nowStr : String) :
    (∀ s, st.schedules.find? (fun x => x.id == sid) = some s →
      s.isActive = true →
      hasJob (toggle_schedule st sid now).2.jobs sid = false) ∧
    ((∀ s ∈ st.schedules, s.isActive = true → s.id ≠ sid) →
      hasJob st.jobs sid = false →
      hasJob (load_schedules st now).jobs sid = false) ∧
    (∀ s, st.schedules.find? (fun x => x.id == sid) = some s →
      hasJob (delete_schedule st sid).2.jobs sid = false) ∧
    (∀ h m t, parse_run_time d.runTime = some (h, m) →
      buildTrigger (newSchedOfReq st d h m) = .ok t →
      hasJob (create_schedule st d now nowStr).2.jobs
        (newSchedOfReq st d h m).id = true) := by
  refine ⟨?_, ?_, ?_, ?_⟩
  · intro s hf ha
    simp only [toggle_schedule, hf, ha, Bool.not_true, if_false]
    exact hasJob_removeJob_self st.jobs sid
  · intro hall hnone
    unfold load_schedules
    refine hasJob_foldl_add now sid _ st.jobs ?_ hnone
    intro s hs
    rw [List.mem_filter] at hs
    exact hall s hs.1 hs.2
  · intro s hf
    simp only [delete_schedule, hf]
    exact hasJob_removeJob_self st.jobs sid
  · intro h m t hp ht
    simp only [create_schedule, hp]
    simp only [add_schedule, ht, addJob, hasJob, List.any_append]
    simp [hasJob]

/-- C7: for a monthly definition with `dayOfMonth = dm`, the armed trigger's
fire instants are exactly one per month having a day `dm` (that day at the
schedule's time), and none in any month lacking day `dm` — such months are
skipped, never rolled to another day (any instant the next-fire search
returns falls on day `dm`), and produce no error (the trigger built once is
total over the calendar). -/
theorem C7_monthly_skip (s : ScheduleRec) (dm : Int) (t : CronTrigger)
    (h1 : s.scheduleType = "monthly") (h2 : s.dayOfMonth = some dm)
    (h3 : dm ≠ 0) (h4 : buildTrigger s = .ok t) :
    t.sel = DaySel.dom dm ∧
    (∀ y m : Nat, daysInMonth y m < dm.toNat →
      ∀ dt : LocalDT, dt.year = y → dt.month = m → isFire t dt = false) ∧
    (∀ y m : Nat, 1 ≤ m → m ≤ 12 → dm.toNat ≤ daysInMonth y m →
      ∀ dt : LocalDT, (isFire t dt = true ∧ dt.year = y ∧ dt.month = m) ↔
        dt = ⟨y, m, dm.toNat, t.hour, t.minute⟩) ∧
    (∀ now f : LocalDT, nextFire t now = some f → (f.day : Int) = dm) := by
  rw [buildTrigger_monthly s dm h1 h2 h3] at h4
  obtain ⟨ht, hmin, hhour, hd1, hd31⟩ := mkCronTrigger_dom_ok _ _ _ _ h4
  subst ht
  refine ⟨rfl, ?_, ?_, ?_⟩
  · intro y m hlt dt hy hm
    cases hfb : isFire ⟨s.runTimeMinute, s.runTimeHour, DaySel.dom dm,
        "Asia/Jakarta"⟩ dt with
    | false => rfl
    | true =>
      exfalso
      unfold isFire at hfb
      rw [Bool.and_eq_true] at hfb
      obtain ⟨hvalid, hmatch⟩ := hfb
      unfold validDT at hvalid
      rw [decide_eq_true_eq] at hvalid
      unfold cronMatches at hmatch
      rw [Bool.and_eq_true, Bool.and_eq_true] at hmatch
      obtain ⟨⟨-, -⟩, hsel⟩ := hmatch
      simp only [selMatches, beq_iff_eq] at hsel
      subst hy
      subst hm
      omega
  · intro y m hm1 hm2 hle dt
    constructor
    · rintro ⟨hfire, hy, hm⟩
      unfold isFire at hfire
      rw [Bool.and_eq_true] at hfire
      obtain ⟨hvalid, hmatch⟩ := hfire
      unfold cronMatches at hmatch
      rw [Bool.and_eq_true, Bool.and_eq_true] at hmatch
      obtain ⟨⟨hmineq, hhreq⟩, hsel⟩ := hmatch
      rw [beq_iff_eq] at hmineq hhreq
      simp only [selMatches, beq_iff_eq] at hsel
      obtain ⟨dty, dtm, dtd, dth, dtmin⟩ := dt
      simp only at hy hm hmineq hhreq hsel
      subst hy
      subst hm
      simp only [LocalDT.mk.injEq]
      refine ⟨trivial, trivial, by omega, by simpa using hhreq,
        by simpa using hmineq⟩
    · rintro rfl
      refine ⟨?_, rfl, rfl⟩
      unfold isFire validDT cronMatches
      rw [Bool.and_eq_true]
      constructor
      · rw [decide_eq_true_eq]
        simp only
        omega
      · rw [Bool.and_eq_true, Bool.and_eq_true]
        refine ⟨⟨by simp, by simp⟩, ?_⟩
        simp only [selMatches, beq_iff_eq]
        omega
  · intro now f hnf
    have hspec := nextFireAux_spec _ now _ _ f hnf
    obtain ⟨-, -, hsel, -⟩ := hspec
    simp only [selMatches, beq_iff_eq] at hsel
    omega

/-- A monthly schedule on day 31, as in the April scenario. -/
def monthly31Sched : ScheduleRec :=
  ⟨2, "m", "monthly", 8, 0, none, some 31, true, none⟩

/-- The trigger armed for `monthly31Sched`. -/
def trigger31 : CronTrigger := ⟨0, 8, DaySel.dom 31, "Asia/Jakarta"⟩

/-- C7 witness: the monthly statement applied to the concrete day-31
schedule: April (30 days) has no fire instant, any month with a 31st has
exactly one, and the next-fire search only ever lands on day 31. -/
theorem C7_monthly_skip_witness :
    monthly31Sched.scheduleType = "monthly" ∧
    monthly31Sched.dayOfMonth = some 31 ∧ (31 : Int) ≠ 0 ∧
    buildTrigger monthly31Sched = .ok trigger31 ∧
    (trigger31.sel = DaySel.dom 31 ∧
      (∀ y m : Nat, daysInMonth y m < (31 : Int).toNat →
        ∀ dt : LocalDT, dt.year = y → dt.month = m →
          isFire trigger31 dt = false) ∧
      (∀ y m : Nat, 1 ≤ m → m ≤ 12 → (31 : Int).toNat ≤ daysInMonth y m →
        ∀ dt : LocalDT,
          (isFire trigger31 dt = true ∧ dt.year = y ∧ dt.month = m) ↔
            dt = ⟨y, m, (31 : Int).toNat, trigger31.hour, trigger31.minute⟩) ∧
      (∀ now f : LocalDT, nextFire trigger31 now = some f →
        (f.day : Int) = 31)) :=
  ⟨rfl, rfl, by decide, rfl,
    C7_monthly_skip monthly31Sched 31 trigger31 rfl rfl (by decide) rfl⟩

/-- C8: for every valid daily definition, the armed trigger carries the fixed
configured timezone `Asia/Jakarta` (no process-local setting is consulted —
the translator takes none as input), and every one of its fire instants has
exactly the schedule's hour and minute. -/
theorem C8_daily_fixed_time (s : ScheduleRec) (t : CronTrigger)
    (h1 : s.scheduleType = "daily") (h2 : buildTrigger s = .ok t) :
    t.timezone = "Asia/Jakarta" ∧ t.hour = s.runTimeHour ∧
      t.minute = s.runTimeMinute ∧
    (∀ dt : LocalDT, isFire t dt = true →
      dt.hour = s.runTimeHour ∧ dt.minute = s.runTimeMinute) := by
  rw [buildTrigger_daily s h1] at h2
  obtain ⟨ht, -, -⟩ := mkCronTrigger_ok _ _ _ _ h2
  subst ht
  refine ⟨rfl, rfl, rfl, ?_⟩
  intro dt hf
  unfold isFire cronMatches at hf
  rw [Bool.and_eq_true] at hf
  obtain ⟨-, hmatch⟩ := hf
  rw [Bool.and_eq_true, Bool.and_eq_true] at hmatch
  obtain ⟨⟨hmin, hh⟩, -⟩ := hmatch
  rw [beq_iff_eq] at hmin hh
  exact ⟨hh, hmin⟩

/-- A daily schedule at 07:30 for the C8 witness. -/
def dailySched : ScheduleRec := ⟨3, "d", "daily", 7, 30, none, none, true, none⟩

/-- The trigger armed for `dailySched`. -/
def triggerDaily : CronTrigger := ⟨30, 7, DaySel.everyday, "Asia/Jakarta"⟩

/-- C8 witness: the daily statement applied to the concrete 07:30 schedule. -/
theorem C8_daily_fixed_time_witness :
    dailySched.scheduleType = "daily" ∧
    buildTrigger dailySched = .ok triggerDaily ∧
    (triggerDaily.timezone = "Asia/Jakarta" ∧
      triggerDaily.hour = dailySched.runTimeHour ∧
      triggerDaily.minute = dailySched.runTimeMinute ∧
      (∀ dt : LocalDT, isFire triggerDaily dt = true →
        dt.hour = dailySched.runTimeHour ∧
        dt.minute = dailySched.runTimeMinute)) :=
  ⟨rfl, rfl, C8_daily_fixed_time dailySched triggerDaily rfl rfl⟩

/-- C9: a create request whose `run_time` string contains no colon is not
rejected by the create endpoint — the time parser silently yields `00:00`
(midnight), the request answers 201, and the schedule is stored with hour 0
and minute 0. -/
theorem C9_no_colon_silent_midnight (st : AppState) (d : CreateReq)
    (now : LocalDT) (nowStr : String)
    (h : containsChar d.runTime ':' = false) :
    parse_run_time d.runTime = some (0, 0) ∧
    (create_schedule st d now nowStr).1 = 201 ∧
    (create_schedule st d now nowStr).2.schedules =
      st.schedules ++ [newSchedOfReq st d 0 0] := by
  have hp : parse_run_time d.runTime = some (0, 0) := by
    unfold parse_run_time
    rw [h]
    rfl
  refine ⟨hp, ?_, ?_⟩
  · simp [create_schedule, hp]
  · simp [create_schedule, hp]

/-- A create request whose `run_time` has no colon at all. -/
def noColonReq : CreateReq := ⟨"n", "daily", "0930", none, none, none, none⟩

/-- C9 witness: the no-colon statement applied to the concrete request with
`run_time = "0930"`. -/
theorem C9_no_colon_witness :
    containsChar noColonReq.runTime ':' = false ∧
    (parse_run_time noColonReq.runTime = some (0, 0) ∧
      (create_schedule emptyState noColonReq clock0 "t").1 = 201 ∧
      (create_schedule emptyState noColonReq clock0 "t").2.schedules =
        emptyState.schedules ++ [newSchedOfReq emptyState noColonReq 0 0]) :=
  ⟨by decide,
    C9_no_colon_silent_midnight emptyState noColonReq clock0 "t" (by decide)⟩

/-- C10 counterexample: a dispatch with the non-null `media_channel_id = 0`
(falsy in Python, matching no row since ids start at 1) takes the print-task
branch: the single success entry's message is the print completion text, not
the media-channel-not-found text the claim requires. -/
theorem C10_cex :
    execute_task 1 "s" (some 0) [] none =
      [⟨some 1, "success", "✅ Print task \x27s\x27 completed"⟩] ∧
    ("✅ Print task \x27s\x27 completed" ≠ "⚠️ Media channel 0 not found") :=
  ⟨rfl, by decide⟩

/-- C10 amended: for every dispatch whose `media_channel_id` is non-null and
non-zero and matches no `MediaChannel` row, the dispatcher completes and
writes exactly one log entry with status `success` whose message says the
media channel was not found. -/
theorem C10_amended (sid : Nat) (name : String) (mcid : Int)
    (channels : List MediaChannel) (h0 : mcid ≠ 0)
    (hfind : channels.find? (fun mc => mc.id == mcid) = none) :
    execute_task sid name (some mcid) channels none =
      [⟨some sid, "success",
        "⚠️ Media channel " ++ toString mcid ++ " not found"⟩] := by
  simp [execute_task, intTruthy, hfind, bne_iff_ne, h0]

/-- C10 witness: the amended statement applied to a concrete dispatch with
`media_channel_id = 7` and an empty channel table. -/
theorem C10_amended_witness :
    (7 : Int) ≠ 0 ∧
    (List.find? (fun mc => mc.id == (7 : Int)) ([] : List MediaChannel)
      = none) ∧
    execute_task 3 "s" (some 7) [] none =
      [⟨some 3, "success",
        "⚠️ Media channel " ++ toString (7 : Int) ++ " not found"⟩] :=
  ⟨by decide, rfl, C10_amended 3 "s" 7 [] (by decide) rfl⟩
